import Mathlib

/-!
Verification of the task-organizer front end (src/frontend_web/src/App.js).

The controller logic of App.js is shallowly embedded below.  Each event
handler of the source is modelled as a pure function from the controller
state plus the remote store's response to the issued request (if any)
together with the state the handler leaves behind once it has run to
completion.  JavaScript strings are modelled by Lean strings, the
JavaScript trim by jsTrim, and JavaScript truthiness of dynamically typed
store values by the JsVal type with its truthy coercion, mirroring the
double-negation coercions in the source.
-/

namespace TodoApp

/-- Dynamically typed value as returned by the remote store for the
completed column; the source coerces it with a double negation. -/
inductive JsVal where
  | vnull : JsVal
  | vbool : Bool → JsVal
  | vnum : Int → JsVal
  | vstr : String → JsVal
deriving DecidableEq

/-- JavaScript truthiness, the meaning of the double-negation coercion
applied in the source to the completed field of fetched rows. -/
def truthy : JsVal → Bool
  | .vnull => false
  | .vbool b => b
  | .vnum n => n != 0
  | .vstr s => s != ""

/-- JavaScript String.prototype.trim on the underlying character list:
drop whitespace from the front, then from the back. -/
def jsTrimAux (l : List Char) : List Char :=
  ((l.dropWhile Char.isWhitespace).reverse.dropWhile Char.isWhitespace).reverse

/-- Embedding of the trim applied to the add input and the edit draft. -/
def jsTrim (s : String) : String :=
  ⟨jsTrimAux s.data⟩

/-- A row of the remote tasks table as it arrives over the wire; the
completed column is dynamically typed. -/
structure Row where
  id : Nat
  title : String
  completed : JsVal
  created_at : Nat
deriving DecidableEq

/-- A task held in local state: id, title, completed flag, creation time
(the shape built by the normalizing maps in App.js). -/
structure Task where
  id : Nat
  title : String
  completed : Bool
  created_at : Nat
deriving DecidableEq

/-- The normalization App.js applies to every row received from the
store: keep id, title and created_at, coerce completed to a boolean. -/
def normalizeRow (r : Row) : Task :=
  { id := r.id
    title := r.title
    completed := truthy r.completed
    created_at := r.created_at }

/-- The controller state of App.js: the task list, the add input field,
the edit cursor (editTaskId, editValue), the filter mode, the loading
flag and the shared error slot. -/
structure AppState where
  tasks : List Task
  input : String
  editTaskId : Option Nat
  editValue : String
  filter : String
  loading : Bool
  error : String
deriving DecidableEq

/-- A request issued to the remote store. -/
inductive Request where
  | selectAll : (table : String) → (orderBy : String) → (ascending : Bool) → Request
  | insert : (table : String) → (title : String) → (completed : Bool) → Request
  | updateTitle : (table : String) → (id : Nat) → (title : String) → Request
  | updateCompleted : (table : String) → (id : Nat) → (completed : Bool) → Request
  | deleteById : (table : String) → (id : Nat) → Request
deriving DecidableEq

/-- Response to a select or to an insert-returning-rows call: either an
error, or data that may be null or a list of rows. -/
inductive RowsResponse where
  | err : RowsResponse
  | ok : Option (List Row) → RowsResponse
deriving DecidableEq

/-- Response to an update or delete call, of which the source only
destructures the error field. -/
inductive DbAck where
  | err : DbAck
  | ok : DbAck
deriving DecidableEq

/-- Embedding of fetchTasks (App.js lines 49-75): request all rows of
the tasks table ordered by created_at ascending; on error set the load
error and an empty list, on success normalize the rows (null data counts
as no rows); the loading flag ends false either way. -/
def fetchTasks (s : AppState) (resp : RowsResponse) : Request × AppState :=
  let req := Request.selectAll "tasks" "created_at" true
  match resp with
  | .err =>
      (req, { s with
        loading := false
        error := "Failed to load tasks"
        tasks := [] })
  | .ok data =>
      (req, { s with
        loading := false
        error := ""
        tasks := (data.getD []).map (fun t =>
          { id := t.id
            title := t.title
            completed := truthy t.completed
            created_at := t.created_at }) })

/-- Embedding of handleAddTask (App.js lines 81-107): trim the input; if
empty return without any request; otherwise insert the trimmed title
with completed false.  On error set the add error; on success with a
nonempty returned row set append the normalized first row and clear the
input; on success with null or empty data change nothing further. -/
def handleAddTask (s : AppState) (resp : RowsResponse) : Option Request × AppState :=
  let value := jsTrim s.input
  if value = "" then
    (none, s)
  else
    let req := Request.insert "tasks" value false
    match resp with
    | .err =>
        (some req, { s with
          loading := false
          error := "Failed to add task" })
    | .ok data =>
        match data with
        | some (r :: _) =>
            (some req, { s with
              loading := false
              error := ""
              tasks := s.tasks ++ [{ id := r.id
                                     title := r.title
                                     completed := truthy r.completed
                                     created_at := r.created_at }]
              input := "" })
        | _ =>
            (some req, { s with
              loading := false
              error := "" })

/-- Embedding of beginEditTask (App.js lines 113-116): set the edit
cursor to the chosen task and its current title. -/
def beginEditTask (s : AppState) (taskId : Nat) (currentTitle : String) : AppState :=
  { s with
    editTaskId := some taskId
    editValue := currentTitle }

/-- Embedding of handleSaveEdit (App.js lines 122-145): trim the draft;
if empty clear the cursor and return without any request; otherwise send
the title update.  On error set the update error, on success patch the
matching task's title; the cursor is cleared in every branch. -/
def handleSaveEdit (s : AppState) (taskId : Nat) (resp : DbAck) : Option Request × AppState :=
  let value := jsTrim s.editValue
  if value = "" then
    (none, { s with
      editTaskId := none
      editValue := "" })
  else
    let req := Request.updateTitle "tasks" taskId value
    match resp with
    | .err =>
        (some req, { s with
          loading := false
          error := "Failed to update task"
          editTaskId := none
          editValue := "" })
    | .ok =>
        (some req, { s with
          loading := false
          error := ""
          tasks := s.tasks.map (fun t =>
            if t.id == taskId then { t with title := value } else t)
          editTaskId := none
          editValue := "" })

/-- Embedding of handleDeleteTask (App.js lines 151-164): send the
delete; on error set the delete error, on success remove the task with
the given id from the local list. -/
def handleDeleteTask (s : AppState) (taskId : Nat) (resp : DbAck) : Option Request × AppState :=
  let req := Request.deleteById "tasks" taskId
  match resp with
  | .err =>
      (some req, { s with
        loading := false
        error := "Failed to delete task" })
  | .ok =>
      (some req, { s with
        loading := false
        error := ""
        tasks := s.tasks.filter (fun t => t.id != taskId) })

/-- Embedding of handleToggleComplete (App.js lines 170-188): look up
the task; if absent return without any request; otherwise send the
negated completed flag.  On error set the update error, on success patch
the matching task's completed flag. -/
def handleToggleComplete (s : AppState) (taskId : Nat) (resp : DbAck) :
    Option Request × AppState :=
  match s.tasks.find? (fun t => t.id == taskId) with
  | none => (none, s)
  | some task =>
      let newCompleted := !task.completed
      let req := Request.updateCompleted "tasks" taskId newCompleted
      match resp with
      | .err =>
          (some req, { s with
            loading := false
            error := "Failed to update completed status" })
      | .ok =>
          (some req, { s with
            loading := false
            error := ""
            tasks := s.tasks.map (fun t =>
              if t.id == taskId then { t with completed := newCompleted } else t) })

/-- Embedding of filteredTasks (App.js lines 194-199): keep every task
under the all mode, the incomplete ones under active, the completed ones
under completed, and everything under any other mode string. -/
def filteredTasks (tasks : List Task) (filter : String) : List Task :=
  tasks.filter (fun task =>
    if filter = "all" then true
    else if filter = "active" then !task.completed
    else if filter = "completed" then task.completed
    else true)

/-- A string with no leading and no trailing whitespace character (the
last character is read as the head of the reversed character list). -/
def trimmedStr (s : String) : Prop :=
  (∀ c, s.data.head? = some c → c.isWhitespace = false) ∧
  (∀ c, s.data.reverse.head? = some c → c.isWhitespace = false)

/-- Concrete controller state used to witness the theorems below. -/
def exState : AppState :=
  { tasks := [⟨1, "pay rent", false, 10⟩, ⟨2, "walk dog", true, 20⟩]
    input := "  Buy milk  "
    editTaskId := some 1
    editValue := "  pay rent now  "
    filter := "all"
    loading := false
    error := "" }

/-- Concrete controller state whose input and edit draft trim to empty,
used to witness the no-op theorems below. -/
def exStateWs : AppState :=
  { tasks := [⟨1, "pay rent", false, 10⟩]
    input := "   "
    editTaskId := some 1
    editValue := " "
    filter := "all"
    loading := false
    error := "" }

theorem head?_dropWhile_false {α : Type} (p : α → Bool) (l : List α) :
    ∀ c, (l.dropWhile p).head? = some c → p c = false := by
  induction l with
  | nil => intro c h; simp at h
  | cons a t ih =>
    intro c h
    rw [List.dropWhile_cons] at h
    by_cases ha : p a = true
    · rw [if_pos ha] at h
      exact ih c h
    · rw [if_neg ha] at h
      rw [List.head?_cons, Option.some_inj] at h
      subst h
      simpa using ha

theorem dropWhile_append_eq {α : Type} (p : α → Bool) (l : List α) :
    ∃ u, u ++ l.dropWhile p = l := by
  induction l with
  | nil => exact ⟨[], rfl⟩
  | cons a t ih =>
    by_cases ha : p a = true
    · obtain ⟨u, hu⟩ := ih
      exact ⟨a :: u, by rw [List.dropWhile_cons, if_pos ha, List.cons_append, hu]⟩
    · exact ⟨[], by rw [List.dropWhile_cons, if_neg ha, List.nil_append]⟩

theorem head?_append_left {α : Type} (x z : List α) (c : α) (h : x.head? = some c) :
    (x ++ z).head? = some c := by
  cases x with
  | nil => simp at h
  | cons a t => simpa using h

theorem length_dropWhile_le_self {α : Type} (p : α → Bool) (l : List α) :
    (l.dropWhile p).length ≤ l.length := by
  induction l with
  | nil => simp
  | cons a t ih =>
    rw [List.dropWhile_cons]
    by_cases ha : p a = true
    · rw [if_pos ha]
      exact Nat.le_succ_of_le ih
    · rw [if_neg ha]

theorem jsTrim_no_leading (s : String) :
    ∀ c, (jsTrim s).data.head? = some c → c.isWhitespace = false := by
  intro c hc
  obtain ⟨u, hu⟩ :=
    dropWhile_append_eq Char.isWhitespace (s.data.dropWhile Char.isWhitespace).reverse
  have hsplit : s.data.dropWhile Char.isWhitespace = jsTrimAux s.data ++ u.reverse := by
    have h2 := congrArg List.reverse hu
    rw [List.reverse_append, List.reverse_reverse] at h2
    exact h2.symm
  have hm : (s.data.dropWhile Char.isWhitespace).head? = some c := by
    rw [hsplit]
    exact head?_append_left _ _ c hc
  exact head?_dropWhile_false _ _ c hm

theorem jsTrim_no_trailing (s : String) :
    ∀ c, (jsTrim s).data.reverse.head? = some c → c.isWhitespace = false := by
  intro c hc
  have hrw : (jsTrim s).data.reverse
      = (s.data.dropWhile Char.isWhitespace).reverse.dropWhile Char.isWhitespace := by
    show (jsTrimAux s.data).reverse = _
    rw [jsTrimAux, List.reverse_reverse]
  rw [hrw] at hc
  exact head?_dropWhile_false _ _ c hc

theorem jsTrim_trimmedStr (s : String) : trimmedStr (jsTrim s) :=
  ⟨jsTrim_no_leading s, jsTrim_no_trailing s⟩

theorem jsTrim_length_le (s : String) : (jsTrim s).length ≤ s.length := by
  show (jsTrimAux s.data).length ≤ s.data.length
  rw [jsTrimAux, List.length_reverse]
  exact le_trans
    (length_dropWhile_le_self _ _)
    (le_trans (le_of_eq (List.length_reverse _)) (length_dropWhile_le_self _ _))

theorem handleAddTask_req (s : AppState) (r : RowsResponse)
    (he : jsTrim s.input ≠ "") :
    (handleAddTask s r).1 = some (Request.insert "tasks" (jsTrim s.input) false) := by
  unfold handleAddTask
  cases r with
  | err => simp [he]
  | ok d =>
    rcases d with _ | (_ | ⟨row, rest⟩) <;> simp [he]

theorem handleSaveEdit_req (s : AppState) (tid : Nat) (r : DbAck)
    (he : jsTrim s.editValue ≠ "") :
    (handleSaveEdit s tid r).1
      = some (Request.updateTitle "tasks" tid (jsTrim s.editValue)) := by
  unfold handleSaveEdit
  cases r <;> simp [he]

theorem task_id_unique (l : List Task) (hnd : (l.map Task.id).Nodup)
    {t₁ t₂ : Task} (h₁ : t₁ ∈ l) (h₂ : t₂ ∈ l) (h : t₁.id = t₂.id) : t₁ = t₂ := by
  induction l with
  | nil => cases h₁
  | cons a rest ih =>
    rw [List.map_cons, List.nodup_cons] at hnd
    rcases List.mem_cons.mp h₁ with he₁ | hm₁
    · rcases List.mem_cons.mp h₂ with he₂ | hm₂
      · rw [he₁, he₂]
      · exfalso
        apply hnd.1
        have hin := List.mem_map_of_mem Task.id hm₂
        rwa [← h, he₁] at hin
    · rcases List.mem_cons.mp h₂ with he₂ | hm₂
      · exfalso
        apply hnd.1
        have hin := List.mem_map_of_mem Task.id hm₁
        rwa [h, he₂] at hin
      · exact ih hnd.2 hm₁ hm₂

/-- C1: if the trimmed input is non-empty and the insert succeeds and
returns the created row (the trimmed title, completed false, with the
store-assigned id and creation time), handleAddTask appends exactly that
task to the end of the local list, the length grows by one, every
existing task is untouched, and the input field is cleared. -/
theorem add_success_spec (s : AppState) (i ts : Nat)
    (h : jsTrim s.input ≠ "") :
    (handleAddTask s (.ok (some [⟨i, jsTrim s.input, .vbool false, ts⟩]))).2.tasks
        = s.tasks ++ [⟨i, jsTrim s.input, false, ts⟩]
    ∧ (handleAddTask s (.ok (some [⟨i, jsTrim s.input, .vbool false, ts⟩]))).2.tasks.length
        = s.tasks.length + 1
    ∧ (handleAddTask s (.ok (some [⟨i, jsTrim s.input, .vbool false, ts⟩]))).2.input = "" := by
  unfold handleAddTask
  simp [h, truthy]

/-- Witness for add_success_spec at a concrete state. -/
theorem add_success_spec_witness :
    (handleAddTask exState (.ok (some [⟨7, jsTrim exState.input, .vbool false, 30⟩]))).2.tasks
        = exState.tasks ++ [⟨7, jsTrim exState.input, false, 30⟩]
    ∧ (handleAddTask exState (.ok (some [⟨7, jsTrim exState.input, .vbool false, 30⟩]))).2.tasks.length
        = exState.tasks.length + 1
    ∧ (handleAddTask exState (.ok (some [⟨7, jsTrim exState.input, .vbool false, 30⟩]))).2.input = "" :=
  add_success_spec exState 7 30 (by decide)

/-- C2: if the trimmed input is empty, handleAddTask is a no-op: it
issues no request and returns the state unchanged, in particular the
task list and the error slot are untouched. -/
theorem add_whitespace_noop (s : AppState) (resp : RowsResponse)
    (h : jsTrim s.input = "") :
    handleAddTask s resp = (none, s) := by
  unfold handleAddTask
  simp [h]

/-- Witness for add_whitespace_noop at a concrete state. -/
theorem add_whitespace_noop_witness :
    handleAddTask exStateWs .err = (none, exStateWs) :=
  add_whitespace_noop exStateWs .err (by decide)

/-- C3: whenever a mutating handler's remote call fails, the shared
error slot holds that operation's message and the task list is exactly
what it was before: add (given it issues its insert), save-edit (given
it issues its update), delete, and toggle (given the task is present). -/
theorem mutation_failure_spec (s : AppState) (tid : Nat) :
    (jsTrim s.input ≠ "" →
        (handleAddTask s .err).2.error = "Failed to add task"
        ∧ (handleAddTask s .err).2.tasks = s.tasks)
    ∧ (jsTrim s.editValue ≠ "" →
        (handleSaveEdit s tid .err).2.error = "Failed to update task"
        ∧ (handleSaveEdit s tid .err).2.tasks = s.tasks)
    ∧ ((handleDeleteTask s tid .err).2.error = "Failed to delete task"
        ∧ (handleDeleteTask s tid .err).2.tasks = s.tasks)
    ∧ ((∃ t ∈ s.tasks, t.id = tid) →
        (handleToggleComplete s tid .err).2.error = "Failed to update completed status"
        ∧ (handleToggleComplete s tid .err).2.tasks = s.tasks) := by
  refine ⟨fun h => ?_, fun h => ?_, ⟨rfl, rfl⟩, fun h => ?_⟩
  · unfold handleAddTask
    simp [h]
  · unfold handleSaveEdit
    simp [h]
  · rcases hf : s.tasks.find? (fun t => t.id == tid) with _ | task
    · obtain ⟨t0, hm, hid⟩ := h
      have := List.find?_eq_none.mp hf t0 hm
      simp [hid] at this
    · unfold handleToggleComplete
      rw [hf]
      exact ⟨rfl, rfl⟩

/-- Witness for mutation_failure_spec at a concrete state. -/
theorem mutation_failure_spec_witness :
    ((handleAddTask exState .err).2.error = "Failed to add task"
        ∧ (handleAddTask exState .err).2.tasks = exState.tasks)
    ∧ ((handleSaveEdit exState 1 .err).2.error = "Failed to update task"
        ∧ (handleSaveEdit exState 1 .err).2.tasks = exState.tasks)
    ∧ ((handleDeleteTask exState 1 .err).2.error = "Failed to delete task"
        ∧ (handleDeleteTask exState 1 .err).2.tasks = exState.tasks)
    ∧ ((handleToggleComplete exState 1 .err).2.error = "Failed to update completed status"
        ∧ (handleToggleComplete exState 1 .err).2.tasks = exState.tasks) :=
  ⟨(mutation_failure_spec exState 1).1 (by decide),
   (mutation_failure_spec exState 1).2.1 (by decide),
   (mutation_failure_spec exState 1).2.2.1,
   (mutation_failure_spec exState 1).2.2.2 (by decide)⟩

/-- C4: filteredTasks is a pure function of the list and the mode
issuing no request; the all mode returns the full list, active returns
exactly the incomplete tasks, completed exactly the completed tasks, and
for every mode the result is an order-preserving sublist. -/
theorem filteredTasks_spec (tasks : List Task) :
    filteredTasks tasks "all" = tasks
    ∧ filteredTasks tasks "active" = tasks.filter (fun t => !t.completed)
    ∧ filteredTasks tasks "completed" = tasks.filter (fun t => t.completed)
    ∧ ∀ mode, List.Sublist (filteredTasks tasks mode) tasks := by
  refine ⟨?_, ?_, ?_, fun mode => List.filter_sublist tasks⟩
  · unfold filteredTasks
    simp
  · unfold filteredTasks
    simp
  · unfold filteredTasks
    simp

/-- C5: if the trimmed edit draft is empty, handleSaveEdit issues no
request and only clears the edit cursor: the task list (hence every
title, which thereby reverts to its pre-edit value) is unchanged. -/
theorem saveEdit_empty_spec (s : AppState) (tid : Nat) (resp : DbAck)
    (h : jsTrim s.editValue = "") :
    handleSaveEdit s tid resp
      = (none, { s with editTaskId := none, editValue := "" }) := by
  unfold handleSaveEdit
  simp [h]

/-- Witness for saveEdit_empty_spec at a concrete state. -/
theorem saveEdit_empty_spec_witness :
    handleSaveEdit exStateWs 1 .ok
      = (none, { exStateWs with editTaskId := none, editValue := "" }) :=
  saveEdit_empty_spec exStateWs 1 .ok (by decide)

/-- C8: after every run of handleSaveEdit, whatever the draft and the
remote outcome, the edit cursor is cleared: no task is in edit mode and
the draft text is empty. -/
theorem saveEdit_clears_cursor (s : AppState) (tid : Nat) (resp : DbAck) :
    (handleSaveEdit s tid resp).2.editTaskId = none
    ∧ (handleSaveEdit s tid resp).2.editValue = "" := by
  unfold handleSaveEdit
  by_cases h : jsTrim s.editValue = "" <;> cases resp <;> simp [h]

/-- C9: fetchTasks requests all rows of the tasks table ordered by
created_at ascending; on failure the error slot is set and the list is
empty, and on success the list is exactly the returned rows (null
standing for no rows) normalized by normalizeRow, which coerces the
completed field to a boolean. -/
theorem load_spec (s : AppState) (d : Option (List Row)) :
    (fetchTasks s .err).1 = Request.selectAll "tasks" "created_at" true
    ∧ (fetchTasks s .err).2.error = "Failed to load tasks"
    ∧ (fetchTasks s .err).2.tasks = []
    ∧ (fetchTasks s (.ok d)).1 = Request.selectAll "tasks" "created_at" true
    ∧ (fetchTasks s (.ok d)).2.error = ""
    ∧ (fetchTasks s (.ok d)).2.tasks = (d.getD []).map normalizeRow := by
  exact ⟨rfl, rfl, rfl, rfl, rfl, rfl⟩

/-- C10: if the insert reports no error but returns a null or empty row
set while the trimmed input is non-empty, handleAddTask leaves the task
list unchanged, ends with an empty error slot, and does not clear the
input field. -/
theorem add_empty_result_spec (s : AppState) (h : jsTrim s.input ≠ "") :
    ((handleAddTask s (.ok none)).2.tasks = s.tasks
      ∧ (handleAddTask s (.ok none)).2.error = ""
      ∧ (handleAddTask s (.ok none)).2.input = s.input)
    ∧ ((handleAddTask s (.ok (some []))).2.tasks = s.tasks
      ∧ (handleAddTask s (.ok (some []))).2.error = ""
      ∧ (handleAddTask s (.ok (some []))).2.input = s.input) := by
  unfold handleAddTask
  simp [h]

/-- Witness for add_empty_result_spec at a concrete state. -/
theorem add_empty_result_spec_witness :
    ((handleAddTask exState (.ok none)).2.tasks = exState.tasks
      ∧ (handleAddTask exState (.ok none)).2.error = ""
      ∧ (handleAddTask exState (.ok none)).2.input = exState.input)
    ∧ ((handleAddTask exState (.ok (some []))).2.tasks = exState.tasks
      ∧ (handleAddTask exState (.ok (some []))).2.error = ""
      ∧ (handleAddTask exState (.ok (some []))).2.input = exState.input) :=
  add_empty_result_spec exState (by decide)

/-- C6: under the 120-character cap the input elements impose on the
add input and the edit draft, every title handleAddTask or
handleSaveEdit sends to the store is the trimmed raw text: it carries no
leading or trailing whitespace, is non-empty, and is at most 120 code
points long — so neither operation ever persists an empty or
whitespace-only title. -/
theorem sent_title_spec (s : AppState) (tid : Nat) (r1 : RowsResponse) (r2 : DbAck)
    (h1 : s.input.length ≤ 120) (h2 : s.editValue.length ≤ 120) :
    (∀ t c, (handleAddTask s r1).1 = some (Request.insert "tasks" t c) →
        t = jsTrim s.input ∧ trimmedStr t ∧ t ≠ "" ∧ t.length ≤ 120)
    ∧ (∀ t, (handleSaveEdit s tid r2).1 = some (Request.updateTitle "tasks" tid t) →
        t = jsTrim s.editValue ∧ trimmedStr t ∧ t ≠ "" ∧ t.length ≤ 120) := by
  constructor
  · intro t c hreq
    by_cases he : jsTrim s.input = ""
    · rw [handleAddTask, if_pos he] at hreq
      cases hreq
    · rw [handleAddTask_req s r1 he, Option.some_inj] at hreq
      have ht : t = jsTrim s.input := by
        cases hreq
        rfl
      subst ht
      exact ⟨rfl, jsTrim_trimmedStr _, he, le_trans (jsTrim_length_le _) h1⟩
  · intro t hreq
    by_cases he : jsTrim s.editValue = ""
    · rw [handleSaveEdit, if_pos he] at hreq
      cases hreq
    · rw [handleSaveEdit_req s tid r2 he, Option.some_inj] at hreq
      have ht : t = jsTrim s.editValue := by
        cases hreq
        rfl
      subst ht
      exact ⟨rfl, jsTrim_trimmedStr _, he, le_trans (jsTrim_length_le _) h2⟩

/-- Witness for sent_title_spec at a concrete state. -/
theorem sent_title_spec_witness :
    (∀ t c, (handleAddTask exState .err).1 = some (Request.insert "tasks" t c) →
        t = jsTrim exState.input ∧ trimmedStr t ∧ t ≠ "" ∧ t.length ≤ 120)
    ∧ (∀ t, (handleSaveEdit exState 1 .err).1 = some (Request.updateTitle "tasks" 1 t) →
        t = jsTrim exState.editValue ∧ trimmedStr t ∧ t ≠ "" ∧ t.length ≤ 120) :=
  sent_title_spec exState 1 .err .err (by decide) (by decide)

/-- C7: if the task ids in the local list are pairwise distinct and the
given id is present, two successful toggles in sequence restore the task
list exactly: the task's completed flag is back to its original value
and every other field and task is unchanged. -/
theorem toggle_twice_spec (s : AppState) (tid : Nat)
    (hnd : (s.tasks.map Task.id).Nodup)
    (hmem : ∃ t ∈ s.tasks, t.id = tid) :
    (handleToggleComplete (handleToggleComplete s tid .ok).2 tid .ok).2.tasks = s.tasks := by
  obtain ⟨t0, hm0, hid0⟩ := hmem
  rcases hf : s.tasks.find? (fun t => t.id == tid) with _ | task
  · exact absurd (by simp [hid0]) (List.find?_eq_none.mp hf t0 hm0)
  · have htid : task.id = tid := by
      have hp := List.find?_some hf
      simpa using hp
    have htmem : task ∈ s.tasks := List.mem_of_find?_eq_some hf
    have h1 : (handleToggleComplete s tid .ok).2.tasks
        = s.tasks.map (fun t =>
            if t.id == tid then { t with completed := !task.completed } else t) := by
      unfold handleToggleComplete
      rw [hf]
    have hfind1 : ((handleToggleComplete s tid .ok).2.tasks).find? (fun t => t.id == tid)
        = some { task with completed := !task.completed } := by
      rw [h1, List.find?_map]
      have hpred : (fun t : Task => t.id == tid) ∘
            (fun t => if t.id == tid then { t with completed := !task.completed } else t)
          = fun t : Task => t.id == tid := by
        funext t
        by_cases h : t.id == tid <;> simp [Function.comp, h]
      rw [hpred, hf]
      simp [htid]
    have step2 : ∀ s1 : AppState,
        s1.tasks.find? (fun t => t.id == tid) = some { task with completed := !task.completed } →
        (handleToggleComplete s1 tid .ok).2.tasks
          = s1.tasks.map (fun t =>
              if t.id == tid then { t with completed := task.completed } else t) := by
      intro s1 hf1
      unfold handleToggleComplete
      rw [hf1]
      simp [Bool.not_not]
    rw [step2 _ hfind1, h1, List.map_map]
    have hid : ∀ t ∈ s.tasks,
        ((fun t : Task => if t.id == tid then { t with completed := task.completed } else t) ∘
         (fun t : Task => if t.id == tid then { t with completed := !task.completed } else t)) t
          = id t := by
      intro t ht
      by_cases h : t.id == tid
      · have hteq : t = task := by
          apply task_id_unique s.tasks hnd ht htmem
          rw [htid]
          simpa using h
      -- with the id matched, both patches apply and restore the original flag
        subst hteq
        simp [Function.comp, h]
      · simp [Function.comp, h]
    rw [List.map_congr_left hid, List.map_id]

/-- Witness for toggle_twice_spec at a concrete state. -/
theorem toggle_twice_spec_witness :
    (handleToggleComplete (handleToggleComplete exState 2 .ok).2 2 .ok).2.tasks
      = exState.tasks :=
  toggle_twice_spec exState 2 (by decide) (by decide)

end TodoApp
